import Mathlib

/-!
Shallow embedding of `src/icylister2.py` (class `IcyLister2`), the core of
the IcyLister2 repository: an ICY/SHOUTcast in-band metadata extractor.

Modelling conventions:
- A byte stream is a `List Nat` of byte values; the Python
  `HTTPResponse.read(amt)` primitive returns *up to* `amt` bytes (short data
  at end of stream, never an exception on plain EOF), which `pyRead` models
  with `List.take` / `List.drop`.  `read(None)` and `read` of a negative
  amount read to EOF, matching the `io` semantics.
- Python exceptions reachable in this code are the constructors of `PyError`.
- Python `str` values are Lean `String`; the character-by-character scan of
  `parse_icy_metadata` works on the underlying `List Char`.
- A Python `dict` with insertion order is a `List (String × String)`;
  assignment to an existing key updates the value in place (keeping the
  original position), otherwise appends, as `dictInsert` does.
-/

/-- Python exceptions that the embedded code can raise. -/
inductive PyError where
  /-- `AttributeError`, e.g. calling `.read` on `None` after `close()`. -/
  | attributeError
  /-- `ValueError`, raised by `int(value)` on a non-integer string. -/
  | valueError
  /-- `RuntimeError`, raised by `__init__` when no `icy-metaint` header exists. -/
  | runtimeError
  /-- `UnicodeDecodeError`, raised by `bytes.decode("Windows-1252")` on an undefined byte. -/
  | unicodeDecodeError
  /-- `IndexError`, raised by `current_value[0]` on an empty string. -/
  | indexError
deriving DecidableEq, Repr

/-- The single-quote character `Char.ofNat 39`, written this way to keep the
quote handling of the parser readable at the call sites below. -/
def squoteChar : Char := Char.ofNat 39

/-- Python file-like `read`: `read(None)` and `read` of a negative amount read
to end of stream, `read(n)` for `n ≥ 0` returns up to `n` bytes.  Returns the
bytes read and the rest of the stream. -/
def pyRead (s : List Nat) : Option Int → List Nat × List Nat
  | none => (s, [])
  | some n => if n < 0 then (s, []) else (s.take n.toNat, s.drop n.toNat)

/-- `int.from_bytes(bs, "big")`; in the source it is only applied to the
result of `read(1)`, so to `[]` (giving `0`) or a single byte. -/
def intFromBytesBE (bs : List Nat) : Nat :=
  bs.foldl (fun a b => a * 256 + b) 0

/-- The Windows-1252 decode table of Python `bytes.decode("Windows-1252")`:
bytes `0x00`-`0x7F` and `0xA0`-`0xFF` map to the same code point, bytes
`0x80`-`0x9F` map through the cp1252 table, and the five bytes `0x81`,
`0x8D`, `0x8F`, `0x90`, `0x9D` are UNDEFINED in cp1252: Python raises
`UnicodeDecodeError` on them (strict errors mode, the default used by the
source).  `none` models that error. -/
def cp1252Decode (b : Nat) : Option Nat :=
  if b < 0x80 then some b
  else if 0xA0 ≤ b ∧ b < 0x100 then some b
  else match b with
    | 0x80 => some 0x20AC
    | 0x82 => some 0x201A
    | 0x83 => some 0x0192
    | 0x84 => some 0x201E
    | 0x85 => some 0x2026
    | 0x86 => some 0x2020
    | 0x87 => some 0x2021
    | 0x88 => some 0x02C6
    | 0x89 => some 0x2030
    | 0x8A => some 0x0160
    | 0x8B => some 0x2039
    | 0x8C => some 0x0152
    | 0x8E => some 0x017D
    | 0x91 => some 0x2018
    | 0x92 => some 0x2019
    | 0x93 => some 0x201C
    | 0x94 => some 0x201D
    | 0x95 => some 0x2022
    | 0x96 => some 0x2013
    | 0x97 => some 0x2014
    | 0x98 => some 0x02DC
    | 0x99 => some 0x2122
    | 0x9A => some 0x0161
    | 0x9B => some 0x203A
    | 0x9C => some 0x0153
    | 0x9E => some 0x017E
    | 0x9F => some 0x0178
    | _ => none

/-- `bytes.decode("Windows-1252")` over a whole byte list: the first
undefined byte raises `UnicodeDecodeError`, otherwise the decoded characters
are returned in order. -/
def decodeCp1252 : List Nat → Except PyError (List Char)
  | [] => .ok []
  | b :: bs =>
    match cp1252Decode b with
    | none => .error .unicodeDecodeError
    | some cp =>
      match decodeCp1252 bs with
      | .error e => .error e
      | .ok cs => .ok (Char.ofNat cp :: cs)

/-- Python `dict` assignment `m[k] = v` with insertion order: an existing key
keeps its position and gets the new value, a new key is appended. -/
def dictInsert (m : List (String × String)) (k v : String) : List (String × String) :=
  if m.any (fun p => p.1 = k) then
    m.map (fun p => if p.1 = k then (k, v) else p)
  else
    m ++ [(k, v)]

/-- The scan state of `parse_icy_metadata`: the accumulated result dict, the
`current_tag` and `current_value` accumulators (as character lists), and the
`reading_tag` flag. -/
structure PState where
  metadata : List (String × String)
  tag : List Char
  value : List Char
  readingTag : Bool
deriving Repr

/-- The quote-stripping of lines 72-74 of the source, applied to a (nonempty)
`current_value` when `;` is seen: if `current_value[0]` and
`current_value[-1]` are both a single quote, take `current_value[1:-1]`
(which for the one-character value consisting of a quote is the empty
string), else keep the value. -/
def stripQuotes (v : List Char) : List Char :=
  match v with
  | [] => []
  | c0 :: _ =>
    if c0 = squoteChar ∧ v.getLast? = some squoteChar then (v.drop 1).dropLast
    else v

/-- One iteration of the `for char in data_string` loop of
`parse_icy_metadata`.  In tag mode, `=` switches to value mode and any other
character is appended to `current_tag`.  In value mode, `;` closes the pair:
`current_value[0]` on an empty value raises `IndexError`; otherwise the
quote-stripped value is stored and both accumulators reset.  Any other
character is appended to `current_value`. -/
def parseStep (st : PState) (c : Char) : Except PyError PState :=
  if st.readingTag then
    if c = '=' then .ok { st with readingTag := false }
    else .ok { st with tag := st.tag ++ [c] }
  else
    if c = ';' then
      match st.value with
      | [] => .error .indexError
      | _ :: _ =>
        .ok ⟨dictInsert st.metadata (String.mk st.tag) (String.mk (stripQuotes st.value)),
             [], [], true⟩
    else .ok { st with value := st.value ++ [c] }

/-- The loop of `parse_icy_metadata` over the remaining characters; at end of
input the accumulated dict is returned and any partial tag/value accumulator
is dropped. -/
def parseAux : PState → List Char → Except PyError (List (String × String))
  | st, [] => .ok st.metadata
  | st, c :: cs =>
    match parseStep st c with
    | .error e => .error e
    | .ok st2 => parseAux st2 cs

/-- The initial scan state: empty dict, empty accumulators, `reading_tag = True`. -/
def pInit : PState := ⟨[], [], [], true⟩

/-- `IcyLister2.parse_icy_metadata` (lines 51-81 of the source). -/
def parse_icy_metadata (s : String) : Except PyError (List (String × String)) :=
  parseAux pInit s.data

/-- The state of an `IcyLister2` object: `_stream` (the open byte stream, or
`None` after `close()`) and `_meta_interval` (or `None` after `close()`). -/
structure Reader where
  stream : Option (List Nat)
  metaInterval : Option Int
deriving Repr

/-- `IcyLister2.close` (lines 42-49): sets both instance variables to `None`
(the side effect on the socket is outside the model). -/
def close (_r : Reader) : Reader := ⟨none, none⟩

/-- `IcyLister2.get_metadata_once` (lines 83-95): read `_meta_interval` bytes
of audio and drop them, read 1 length byte (`int.from_bytes` of the empty
read is `0`), multiply by 16; if positive, read that many bytes, remove NUL
bytes, decode as Windows-1252 and parse; otherwise fall through, returning
`None` (modelled as the `none` sentinel).  On a closed reader the first
`.read` attribute access on `None` raises `AttributeError`. -/
def get_metadata_once (r : Reader) :
    Except PyError (Option (List (String × String)) × Reader) :=
  match r.stream with
  | none => .error .attributeError
  | some s =>
    let s1 := (pyRead s r.metaInterval).2
    let lb := (pyRead s1 (some 1)).1
    let s2 := (pyRead s1 (some 1)).2
    let metaLen : Nat := intFromBytesBE lb * 16
    if 0 < metaLen then
      let raw := (pyRead s2 (some (metaLen : Int))).1
      let s3 := (pyRead s2 (some (metaLen : Int))).2
      match decodeCp1252 (raw.filter (fun b => b ≠ 0)) with
      | .error e => .error e
      | .ok cs =>
        match parse_icy_metadata (String.mk cs) with
        | .error e => .error e
        | .ok d => .ok (some d, { r with stream := some s3 })
    else .ok (none, { r with stream := some s2 })

/-- `IcyLister2.get_next_metadata` (lines 97-106): loop `get_metadata_once`
while the result is `None`.  The loop has no bound in the source, so the
model takes a fuel argument; `none` means the fuel ran out before the loop
returned (the Python loop would still be running). -/
def get_next_metadata : Nat → Reader →
    Option (Except PyError (List (String × String) × Reader))
  | 0, _ => none
  | fuel + 1, r =>
    match get_metadata_once r with
    | .error e => some (.error e)
    | .ok (some d, r2) => some (.ok (d, r2))
    | .ok (none, r2) => get_next_metadata fuel r2

/-- Python `int(s)` as used on header values: optional surrounding
whitespace, an optional sign, then a nonempty run of decimal digits; `none`
models the `ValueError` raised on anything else.  (Python also accepts
underscore digit grouping and non-ASCII digits; the header values this code
meets never use those, and they are outside the model.) -/
def digitsVal : List Char → Option Nat
  | [] => none
  | cs =>
    if cs.all (fun c => 48 ≤ c.toNat ∧ c.toNat ≤ 57) then
      some (cs.foldl (fun a c => a * 10 + (c.toNat - 48)) 0)
    else none

/-- See `digitsVal`; this is the toplevel `int(s)`. -/
def pyInt (s : String) : Option Int :=
  let cs := (s.data.dropWhile Char.isWhitespace).reverse.dropWhile Char.isWhitespace
  match cs.reverse with
  | [] => none
  | c :: rest =>
    if c = '-' then (digitsVal rest).map (fun n => -(n : Int))
    else if c = '+' then (digitsVal rest).map (fun n => (n : Int))
    else (digitsVal (c :: rest)).map (fun n => (n : Int))

/-- Python `str.lower()` as used on header names: character-wise lowercase
(header names are ASCII, where this agrees with the Python method). -/
def pyLower (s : String) : String := String.mk (s.data.map Char.toLower)

/-- The header loop of `IcyLister2.__init__` (lines 29-31): for each header
whose lowercased name is `"icy-metaint"`, `meta_interval = int(value)` — so a
malformed value raises `ValueError` at that point, and a later match
overwrites an earlier one.  The accumulator is `none` while `meta_interval`
is still unbound. -/
def scanHeaders : List (String × String) → Option Int → Except PyError (Option Int)
  | [], acc => .ok acc
  | (h, v) :: rest, acc =>
    if pyLower h = "icy-metaint" then
      match pyInt v with
      | none => .error .valueError
      | some n => scanHeaders rest (some n)
    else scanHeaders rest acc

/-- `IcyLister2.__init__` (lines 19-40) after the HTTP request: scan the
response headers; if `meta_interval` was never bound the `NameError` probe
raises `RuntimeError`; otherwise the object holds the stream body and the
parsed interval (whatever integer it is — no positivity check exists in the
source). -/
def initReader (headers : List (String × String)) (body : List Nat) :
    Except PyError Reader :=
  match scanHeaders headers none with
  | .error e => .error e
  | .ok none => .error .runtimeError
  | .ok (some n) => .ok ⟨some body, some n⟩

/-- Instrumented variant of `parseAux` that also counts how many characters
of the input the scan visits (each loop iteration visits exactly one). -/
def parseAuxCount : PState → List Char → Except PyError (List (String × String)) × Nat
  | st, [] => (.ok st.metadata, 0)
  | st, c :: cs =>
    match parseStep st c with
    | .error e => (.error e, 1)
    | .ok st2 => ((parseAuxCount st2 cs).1, (parseAuxCount st2 cs).2 + 1)

/-- `Except.ok`-test used in statements below. -/
def isOkResult : Except PyError (List (String × String)) → Bool
  | .ok _ => true
  | .error _ => false

/-! Parser lemmas: the scan of `parse_icy_metadata` processed phase by phase. -/

/-- A run of characters without `=` is accumulated into `current_tag`. -/
theorem parseAux_tagPhase : ∀ (t rest : List Char) (m : List (String × String)) (tg : List Char),
    (∀ c ∈ t, ¬ c = '=') →
    parseAux ⟨m, tg, [], true⟩ (t ++ rest) = parseAux ⟨m, tg ++ t, [], true⟩ rest := by
  intro t
  induction t with
  | nil => intro rest m tg _; simp
  | cons c t ih =>
    intro rest m tg h
    have hc : ¬ c = '=' := h c (by simp)
    simp only [List.cons_append, parseAux, parseStep, if_pos, if_neg hc, if_true,
      List.append_eq]
    rw [ih rest m (tg ++ [c]) (fun x hx => h x (by simp [hx]))]
    simp

/-- A run of characters without `;` is accumulated into `current_value`. -/
theorem parseAux_valuePhase : ∀ (v rest : List Char) (m : List (String × String)) (tg va : List Char),
    (∀ c ∈ v, ¬ c = ';') →
    parseAux ⟨m, tg, va, false⟩ (v ++ rest) = parseAux ⟨m, tg, va ++ v, false⟩ rest := by
  intro v
  induction v with
  | nil => intro rest m tg va _; simp
  | cons c v ih =>
    intro rest m tg va h
    have hc : ¬ c = ';' := h c (by simp)
    simp only [List.cons_append, parseAux, parseStep, Bool.false_eq_true, if_false, if_neg hc,
      List.append_eq]
    rw [ih rest m tg (va ++ [c]) (fun x hx => h x (by simp [hx]))]
    simp

/-- Claim C3 (corrected), counterexample against the claim as stated: the
empty value of `"tag=;"` does not parse verbatim — `current_value[0]` raises
`IndexError`; and the one-character value consisting of a single quote is
not kept verbatim either — both ends pass the quote test and `[1:-1]` leaves
the empty string. -/
theorem c3_counterexample :
    parse_icy_metadata "tag=;" = .error .indexError ∧
    parse_icy_metadata (String.mk ['a', '=', squoteChar, ';']) = .ok [("a", "")] :=
  ⟨rfl, rfl⟩

/-- Claim C3 (corrected, amended): for a tag without `=` and a value without
`;`, the pair `tag=value;` parses as follows: an empty value makes the parse
fail with `IndexError` (from `current_value[0]`); a nonempty value whose
first and last characters are both single quotes loses exactly one character
from each end (so the one-character quote value becomes empty); every other
nonempty value is stored verbatim. -/
theorem c3_quote_stripping (t v : List Char)
    (ht : ∀ c ∈ t, ¬ c = '=') (hv : ∀ c ∈ v, ¬ c = ';') :
    parse_icy_metadata (String.mk (t ++ '=' :: (v ++ [';']))) =
      if v = [] then .error .indexError
      else .ok [(String.mk t, String.mk (stripQuotes v))] := by
  show parseAux pInit (t ++ '=' :: (v ++ [';'])) = _
  rw [show pInit = ⟨[], ([] : List Char), [], true⟩ from rfl,
    parseAux_tagPhase t ('=' :: (v ++ [';'])) [] [] ht]
  simp only [parseAux, parseStep, if_pos, if_true, List.nil_append]
  rw [parseAux_valuePhase v [';'] [] t [] hv]
  cases v with
  | nil => simp [parseAux, parseStep]
  | cons c v =>
    simp only [List.nil_append, parseAux, parseStep, Bool.false_eq_true, if_false, if_pos rfl]
    simp [dictInsert]

/-- Witness for `c3_quote_stripping` at the concrete pair `a=x;`. -/
theorem c3_quote_stripping_witness :
    parse_icy_metadata (String.mk (['a'] ++ '=' :: (['x'] ++ [';']))) =
      if (['x'] : List Char) = [] then .error .indexError
      else .ok [(String.mk ['a'], String.mk (stripQuotes ['x']))] :=
  c3_quote_stripping ['a'] ['x'] (by decide) (by decide)

/-- Claim C7 (confirmed): the first `;` in value position terminates the
value regardless of quoting, so `parse("x='a;b';")` yields exactly the map
`{"x": "'a"}`, the dangling fragment being dropped at end of input; and end
of input never fails — whatever tag/value is still being accumulated, the
scan returns just the finished pairs. -/
theorem c7_embedded_delimiter :
    parse_icy_metadata (String.mk ['x', '=', squoteChar, 'a', ';', 'b', squoteChar, ';']) =
      .ok [("x", String.mk [squoteChar, 'a'])] ∧
    (∀ st : PState, parseAux st [] = .ok st.metadata) :=
  ⟨rfl, fun _ => rfl⟩

/-- Claim C10 (confirmed): the scan of `parse_icy_metadata` is a single
left-to-right pass — the instrumented scan computes the same result, visits
at most one step per character, and visits every character exactly once
whenever no exception cuts the loop short; it is a total function on every
finite input. -/
theorem c10_single_pass :
    (∀ (st : PState) (cs : List Char),
        (parseAuxCount st cs).1 = parseAux st cs ∧ (parseAuxCount st cs).2 ≤ cs.length) ∧
    (∀ (st : PState) (cs : List Char),
        isOkResult (parseAuxCount st cs).1 = true → (parseAuxCount st cs).2 = cs.length) ∧
    (∀ s : String, (parseAuxCount pInit s.data).1 = parse_icy_metadata s) := by
  have key : ∀ (cs : List Char) (st : PState),
      (parseAuxCount st cs).1 = parseAux st cs ∧ (parseAuxCount st cs).2 ≤ cs.length := by
    intro cs
    induction cs with
    | nil => intro st; exact ⟨rfl, Nat.le_refl 0⟩
    | cons c cs ih =>
      intro st
      simp only [parseAuxCount, parseAux]
      cases parseStep st c with
      | error e => simp
      | ok st2 => simpa using ih st2
  have exact_count : ∀ (cs : List Char) (st : PState),
      isOkResult (parseAuxCount st cs).1 = true → (parseAuxCount st cs).2 = cs.length := by
    intro cs
    induction cs with
    | nil => intro st _; rfl
    | cons c cs ih =>
      intro st h
      simp only [parseAuxCount] at h ⊢
      cases hs : parseStep st c with
      | error e => rw [hs] at h; simp [isOkResult] at h
      | ok st2 =>
        rw [hs] at h
        have h2 : isOkResult (parseAuxCount st2 cs).1 = true := h
        show (parseAuxCount st2 cs).2 + 1 = cs.length + 1
        rw [ih st2 h2]
  exact ⟨fun st cs => key cs st, fun st cs => exact_count cs st, fun s => (key s.data pInit).1⟩

/-- Witness for `c10_single_pass`: on `"a=1;"` the scan succeeds and visits
all four characters. -/
theorem c10_single_pass_witness : (parseAuxCount pInit "a=1;".data).2 = "a=1;".data.length :=
  c10_single_pass.2.1 pInit "a=1;".data rfl

/-- Claim C1 (corrected), counterexample against the claim as stated: with
`MetaInterval = 8` a stream holding only 3 bytes makes the audio-skip step
short, yet `get_metadata_once` returns the no-metadata sentinel instead of
failing; and with `MetaInterval = 0`, length byte `1` and only the 2 body
bytes `"AB"` left of the 16 required, it proceeds and parses the short data,
returning an (empty) map. -/
theorem c1_counterexample :
    get_metadata_once ⟨some [1, 2, 3], some 8⟩ = .ok (none, ⟨some [], some 8⟩) ∧
    get_metadata_once ⟨some [1, 65, 66], some 0⟩ = .ok (some [], ⟨some [], some 0⟩) :=
  ⟨rfl, rfl⟩

/-- Claim C1 (corrected, amended): short reads never raise — `read` returns
the bytes that are left.  When the stream ends during the audio skip or
before the length byte, the empty length read is interpreted as length 0 and
`get_metadata_once` returns the no-metadata sentinel with the stream
exhausted; a short metadata body is likewise processed as-is (second
conjunct of `c1_counterexample` exhibits that case). -/
theorem c1_short_reads (m : Nat) (s : List Nat) (h : s.length ≤ m) :
    get_metadata_once ⟨some s, some (m : Int)⟩ = .ok (none, ⟨some [], some (m : Int)⟩) := by
  have h0 : ¬ ((m : Int) < 0) := by omega
  simp [get_metadata_once, pyRead, if_neg h0, Int.toNat_ofNat,
    List.drop_eq_nil_of_le h, intFromBytesBE]

/-- Witness for `c1_short_reads`: the 3-byte stream against an interval of 8. -/
theorem c1_short_reads_witness :
    get_metadata_once ⟨some [9, 9, 9], some ((8 : Nat) : Int)⟩ =
      .ok (none, ⟨some [], some ((8 : Nat) : Int)⟩) :=
  c1_short_reads 8 [9, 9, 9] (by decide)

set_option maxRecDepth 4000 in
/-- Every cp1252 byte outside the five undefined ones decodes. -/
theorem cp1252Decode_defined : ∀ b : Nat, b < 256 →
    ¬ (b = 0x81 ∨ b = 0x8D ∨ b = 0x8F ∨ b = 0x90 ∨ b = 0x9D) →
    (cp1252Decode b).isSome = true := by decide

/-- A byte list of defined bytes decodes as a whole. -/
theorem decodeCp1252_total : ∀ (bs : List Nat), (∀ b ∈ bs, (cp1252Decode b).isSome = true) →
    ∃ cs, decodeCp1252 bs = .ok cs := by
  intro bs
  induction bs with
  | nil => exact fun _ => ⟨[], rfl⟩
  | cons b bs ih =>
    intro h
    obtain ⟨cp, hcp⟩ := Option.isSome_iff_exists.mp (h b (by simp))
    obtain ⟨cs, hcs⟩ := ih (fun x hx => h x (by simp [hx]))
    exact ⟨Char.ofNat cp :: cs, by simp [decodeCp1252, hcp, hcs]⟩

/-- Claim C2 (corrected), counterexample against the claim as stated: the
byte `0x81` is undefined in Windows-1252, so decoding it raises
`UnicodeDecodeError` — end to end, a metadata block whose only non-NUL byte
is `0x81` makes `get_metadata_once` fail. -/
theorem c2_counterexample :
    cp1252Decode 0x81 = none ∧
    get_metadata_once ⟨some (1 :: 129 :: List.replicate 15 0), some 0⟩ =
      .error .unicodeDecodeError :=
  ⟨rfl, rfl⟩

/-- Claim C2 (corrected, amended): after NUL stripping, decoding the block
under Windows-1252 succeeds for every byte value except the five bytes
`0x81`, `0x8D`, `0x8F`, `0x90`, `0x9D`, which are undefined in the encoding
and raise `UnicodeDecodeError` (so the decoding step is not total). -/
theorem c2_decode_totality :
    (∀ b : Nat, b < 256 → ¬ (b = 0x81 ∨ b = 0x8D ∨ b = 0x8F ∨ b = 0x90 ∨ b = 0x9D) →
        (cp1252Decode b).isSome = true) ∧
    (cp1252Decode 0x81 = none ∧ cp1252Decode 0x8D = none ∧ cp1252Decode 0x8F = none ∧
      cp1252Decode 0x90 = none ∧ cp1252Decode 0x9D = none) ∧
    (∀ bs : List Nat,
        (∀ b ∈ bs, b < 256 ∧ ¬ (b = 0x81 ∨ b = 0x8D ∨ b = 0x8F ∨ b = 0x90 ∨ b = 0x9D)) →
        ∃ cs, decodeCp1252 (bs.filter (fun b => b ≠ 0)) = .ok cs) := by
  refine ⟨cp1252Decode_defined, by decide, ?_⟩
  intro bs h
  apply decodeCp1252_total
  intro x hx
  obtain ⟨hmem, -⟩ := List.mem_filter.mp hx
  obtain ⟨h1, h2⟩ := h x hmem
  exact cp1252Decode_defined x h1 h2

/-- Witness for `c2_decode_totality`: the bytes of `"Hi"` decode. -/
theorem c2_decode_totality_witness :
    ∃ cs, decodeCp1252 (([72, 105] : List Nat).filter (fun b => b ≠ 0)) = .ok cs :=
  c2_decode_totality.2.2 [72, 105] (by decide)

/-- Claim C8 (confirmed): a cycle whose length byte is `0` returns the
no-metadata sentinel, consuming exactly the audio skip plus the length byte
and leaving the rest of the stream untouched (so no body is read and the
parser is not invoked); a cycle with a positive length byte `b` consumes
exactly `b * 16` body bytes and returns the parsed map; and on the spec
example (interval 8, length byte 1, body `a='x';` padded with 10 NULs) the
result is the map with `a` bound to `x`. -/
theorem c8_framing :
    (∀ (m : Nat) (audio rest : List Nat), audio.length = m →
        get_metadata_once ⟨some (audio ++ 0 :: rest), some (m : Int)⟩ =
          .ok (none, ⟨some rest, some (m : Int)⟩)) ∧
    (∀ (m b : Nat) (audio body rest : List Nat) (cs : List Char) (d : List (String × String)),
        audio.length = m → body.length = b * 16 → 0 < b →
        decodeCp1252 (body.filter (fun x => x ≠ 0)) = .ok cs →
        parse_icy_metadata (String.mk cs) = .ok d →
        get_metadata_once ⟨some (audio ++ b :: (body ++ rest)), some (m : Int)⟩ =
          .ok (some d, ⟨some rest, some (m : Int)⟩)) ∧
    get_metadata_once
        ⟨some (List.replicate 8 7 ++ 1 :: ([97, 61, 39, 120, 39, 59] ++ List.replicate 10 0)),
         some ((8 : Nat) : Int)⟩ =
      .ok (some [("a", "x")], ⟨some [], some ((8 : Nat) : Int)⟩) := by
  refine ⟨?_, ?_, rfl⟩
  · intro m audio rest haudio
    have h0 : ¬ ((m : Int) < 0) := by omega
    simp [get_metadata_once, pyRead, if_neg h0, List.drop_left' haudio, intFromBytesBE]
  · intro m b audio body rest cs d haudio hbody hb hdec hparse
    have h0 : ¬ ((m : Int) < 0) := by omega
    have h16 : 0 < b * 16 := by omega
    have hr1 : pyRead (audio ++ b :: (body ++ rest)) (some (m : Int)) =
        (audio, b :: (body ++ rest)) := by
      simp [pyRead, h0, List.take_left' haudio, List.drop_left' haudio]
    have hr2 : pyRead (b :: (body ++ rest)) (some 1) = ([b], body ++ rest) := by
      simp [pyRead]
    have hlen : intFromBytesBE [b] = b := by simp [intFromBytesBE]
    have hr3 : pyRead (body ++ rest) (some ((b * 16 : Nat) : Int)) = (body, rest) := by
      simp only [pyRead]
      rw [if_neg (by omega : ¬ (((b * 16 : Nat) : Int) < 0))]
      rw [show (((b * 16 : Nat) : Int)).toNat = b * 16 by omega]
      rw [List.take_left' hbody, List.drop_left' hbody]
    simp only [get_metadata_once, hr1, hr2, hlen, if_pos h16, hr3, hdec, hparse]

/-- Witness for `c8_framing`: the zero-length case at interval 2 and a
positive case at interval 1 with body `a=x;` plus 12 NULs and a byte of
stream left over. -/
theorem c8_framing_witness :
    get_metadata_once ⟨some ([9, 9] ++ 0 :: [7]), some ((2 : Nat) : Int)⟩ =
      .ok (none, ⟨some [7], some ((2 : Nat) : Int)⟩) ∧
    get_metadata_once ⟨some ([5] ++ 1 :: (([97, 61, 120, 59] ++ List.replicate 12 0) ++ [3])),
        some ((1 : Nat) : Int)⟩ =
      .ok (some [("a", "x")], ⟨some [3], some ((1 : Nat) : Int)⟩) :=
  ⟨c8_framing.1 2 [9, 9] [7] rfl,
   c8_framing.2.1 1 1 [5] ([97, 61, 120, 59] ++ List.replicate 12 0) [3]
     ['a', '=', 'x', ';'] [("a", "x")] rfl rfl (by decide) rfl rfl⟩

/-- Claim C4 (corrected), counterexample against the claim as stated: a
positive-length block of sixteen `A` bytes parses to the empty map (no `=`
ever switches the scan to value mode), `get_metadata_once` returns it as a
non-`None` result, and `get_next_metadata` hands that empty mapping straight
to the caller. -/
theorem c4_counterexample :
    get_next_metadata 1 ⟨some (0 :: 1 :: List.replicate 16 65), some 1⟩ =
      some (.ok ([], ⟨some [], some 1⟩)) := rfl

/-- Claim C4 (corrected, amended): `get_next_metadata` skips exactly the
`None` sentinels of zero-length blocks; the first cycle that yields a parsed
map ends the loop and that map is returned unchanged — including when it is
empty. -/
theorem c4_first_map_returned :
    (∀ (fuel : Nat) (r r2 : Reader) (d : List (String × String)),
        get_metadata_once r = .ok (some d, r2) →
        get_next_metadata (fuel + 1) r = some (.ok (d, r2))) ∧
    (∀ (fuel : Nat) (r r2 : Reader),
        get_metadata_once r = .ok (none, r2) →
        get_next_metadata (fuel + 1) r = get_next_metadata fuel r2) := by
  constructor
  · intro fuel r r2 d h
    simp [get_next_metadata, h]
  · intro fuel r r2 h
    simp [get_next_metadata, h]

/-- Witness for `c4_first_map_returned`: a block of thirty-two `B` bytes
parses to the empty map and is returned as-is. -/
theorem c4_first_map_returned_witness :
    get_next_metadata 1 ⟨some (0 :: 2 :: List.replicate 32 66), some 1⟩ =
      some (.ok ([], ⟨some [], some 1⟩)) :=
  c4_first_map_returned.1 0 ⟨some (0 :: 2 :: List.replicate 32 66), some 1⟩
    ⟨some [], some 1⟩ [] rfl

/-- Claim C6 (confirmed): after `close()` both `_stream` and `_meta_interval`
are `None`, so every later `get_metadata_once` or `get_next_metadata` call
fails on the `None._stream.read` attribute access — the `AttributeError`
that realises the InvalidStateError of the design. -/
theorem c6_closed_reader :
    (∀ r : Reader, get_metadata_once (close r) = .error .attributeError) ∧
    (∀ (fuel : Nat) (r : Reader),
        get_next_metadata (fuel + 1) (close r) = some (.error .attributeError)) :=
  ⟨fun _ => rfl, fun _ _ => rfl⟩

/-- Claim C5 (corrected), counterexample against the claim as stated: the
interval values `"0"` and `"-3"` are non-positive integers, yet construction
succeeds and stores them — no positivity check exists in `__init__`. -/
theorem c5_counterexample :
    initReader [("icy-metaint", "0")] [] = .ok ⟨some [], some 0⟩ ∧
    initReader [("icy-metaint", "-3")] [9] = .ok ⟨some [9], some (-3)⟩ :=
  ⟨rfl, rfl⟩

/-- Claim C5 (corrected, amended): a header value that is not an integer
string makes construction fail with the `ValueError` of `int()`; any integer
value — positive or not — is stored as the MetaInterval; a response with no
matching header fails with the `RuntimeError` of the `NameError` probe. -/
theorem c5_interval_validation :
    (∀ (v : String) (body : List Nat), pyInt v = none →
        initReader [("icy-metaint", v)] body = .error .valueError) ∧
    (∀ (v : String) (n : Int) (body : List Nat), pyInt v = some n →
        initReader [("icy-metaint", v)] body = .ok ⟨some body, some n⟩) ∧
    (∀ body : List Nat, initReader [] body = .error .runtimeError) := by
  have hlow : pyLower "icy-metaint" = "icy-metaint" := by decide
  refine ⟨?_, ?_, fun body => rfl⟩
  · intro v body hv
    simp [initReader, scanHeaders, hlow, hv]
  · intro v n body hv
    simp [initReader, scanHeaders, hlow, hv]

/-- Witness for `c5_interval_validation`: `"abc"` is rejected, `"-7"` is
accepted and stored. -/
theorem c5_interval_validation_witness :
    initReader [("icy-metaint", "abc")] [] = .error .valueError ∧
    initReader [("icy-metaint", "-7")] [1] = .ok ⟨some [1], some (-7)⟩ :=
  ⟨c5_interval_validation.1 "abc" [] rfl, c5_interval_validation.2.1 "-7" (-7) [1] rfl⟩

/-- Claim C9 (corrected), counterexample against the claim as stated: with
two matching headers whose first value is malformed, construction does not
succeed with the last value — the loop applies `int()` to every matching
value in order, so the first one raises `ValueError`. -/
theorem c9_counterexample :
    initReader [("icy-metaint", "x"), ("icy-metaint", "5")] [] = .error .valueError := rfl

/-- Header prefixes whose matching values all parse leave only a new
accumulator behind. -/
theorem scanHeaders_append : ∀ (pre rest : List (String × String)) (acc : Option Int),
    (∀ p ∈ pre, pyLower p.1 = "icy-metaint" → (pyInt p.2).isSome = true) →
    ∃ acc2 : Option Int, scanHeaders (pre ++ rest) acc = scanHeaders rest acc2 := by
  intro pre
  induction pre with
  | nil => exact fun rest acc _ => ⟨acc, rfl⟩
  | cons p pre ih =>
    intro rest acc h
    obtain ⟨ph, pv⟩ := p
    by_cases hname : pyLower ph = "icy-metaint"
    · obtain ⟨n, hn⟩ := Option.isSome_iff_exists.mp (h (ph, pv) (List.mem_cons_self _ _) hname)
      obtain ⟨acc2, hacc⟩ :=
        ih rest (some n) (fun q hq hq2 => h q (List.mem_cons_of_mem _ hq) hq2)
      exact ⟨acc2, by simpa [scanHeaders, hname, hn] using hacc⟩
    · obtain ⟨acc2, hacc⟩ :=
        ih rest acc (fun q hq hq2 => h q (List.mem_cons_of_mem _ hq) hq2)
      exact ⟨acc2, by simpa [scanHeaders, hname] using hacc⟩

/-- Claim C9 (corrected, amended): when several headers match
`icy-metaint` case-insensitively, every matching value is parsed in response
order (the parsed results of the earlier ones being discarded), and when all
of them parse, construction succeeds with the value of the last match; the
second conjunct pins the case-insensitive two-header instance concretely. -/
theorem c9_last_header_wins :
    (∀ (pre : List (String × String)) (v : String) (n : Int) (body : List Nat),
        (∀ p ∈ pre, pyLower p.1 = "icy-metaint" → (pyInt p.2).isSome = true) →
        pyInt v = some n →
        initReader (pre ++ [("icy-metaint", v)]) body = .ok ⟨some body, some n⟩) ∧
    initReader [("Icy-MetaInt", "7"), ("ICY-METAINT", "5")] [1] = .ok ⟨some [1], some 5⟩ := by
  have hlow : pyLower "icy-metaint" = "icy-metaint" := by decide
  refine ⟨?_, rfl⟩
  intro pre v n body hpre hv
  obtain ⟨acc2, hacc⟩ := scanHeaders_append pre [("icy-metaint", v)] none hpre
  simp [initReader, hacc, scanHeaders, hlow, hv]

/-- Witness for `c9_last_header_wins`: one well-formed earlier match, the
later value `5` is stored. -/
theorem c9_last_header_wins_witness :
    initReader ([("Icy-MetaInt", "7")] ++ [("icy-metaint", "5")]) [] = .ok ⟨some [], some 5⟩ :=
  c9_last_header_wins.1 [("Icy-MetaInt", "7")] "5" 5 [] (by decide) rfl
